import Mathlib

/-!
# Verification of the marketplace watch-service control plane

Shallow embedding of the control-plane logic shared by the three bot sources
(Drom.py, autoru.py, youla.py): the key/value + ads `Storage`, the URL
sanitizer, the `ParserService` lifecycle (`start`/`stop`/`_run`), the menu and
text command handlers, the expiry watchdog `expiry_job`, and the autoru
freshness filter `is_fresh`.

Modelling conventions:
* SQLite's `settings` table (key TEXT PRIMARY KEY, value TEXT) is a function
  `String → Option String`; upsert overwrites the key.
* ISO-8601 timestamps are abstracted to integer-valued strings: `isoformat`
  becomes `render_time` and `datetime.fromisoformat` (with its try/except)
  becomes the fallible `parse_time`.  Times are integers.
* Python truthiness of an optional string (`if not raw:`) is `optTruthy`:
  false exactly on `None` and the empty string.
* Python `str.strip` / `str.lower` / `startswith` / `len` are modelled on the
  character list of the string (`pyStrip`, `pyLower`, `pyStartsWith`,
  character-list length), which matches their behaviour on the ASCII URLs and
  keys involved.
* The asyncio task and stop event of `ParserService` are explicit fields; the
  environment's choice of how long the task needs to exit is a parameter of
  `stop`, and the wall-clock wait performed by `stop` is returned alongside
  the new state.
-/

namespace Parsers

/-! ## Settings keys (Drom.py lines 31-37, autoru.py lines 33-39) -/

def KEY_EXPIRY_AT : String := "expiry_at"
def KEY_EXPIRED_LOCK : String := "expired_lock"
def KEY_WATCH_URL : String := "watch_url"
def KEY_CHAT_ID : String := "chat_id"
def KEY_PROXY : String := "proxy"
def KEY_CHROMEDRIVER : String := "chromedriver_path"
def KEY_PROFILE_PATH : String := "profile_path"

/-! ## Python-string helpers -/

/-- Whitespace characters removed by Python's `str.strip()`. -/
def pyIsSpace (c : Char) : Bool :=
  c = ' ' || c = '\t' || c = '\n' || c.toNat = 13 || c.toNat = 11 || c.toNat = 12

/-- Python `str.strip()`. -/
def pyStrip (s : String) : String :=
  ⟨((s.data.dropWhile pyIsSpace).reverse.dropWhile pyIsSpace).reverse⟩

/-- ASCII lowercasing of one character (the URLs checked are ASCII). -/
def pyLowerChar (c : Char) : Char :=
  if 65 ≤ c.toNat ∧ c.toNat ≤ 90 then Char.ofNat (c.toNat + 32) else c

/-- Python `str.lower()` on ASCII strings. -/
def pyLower (s : String) : String := ⟨s.data.map pyLowerChar⟩

/-- Python `str.startswith(p)`. -/
def pyStartsWith (s p : String) : Bool := p.data.isPrefixOf s.data

/-- Python truthiness of an optional string: `None` and `""` are falsy. -/
def optTruthy : Option String → Bool
  | none => false
  | some v => v ≠ ""

/-- Semicolon character (the regex `[;'\\]` in the sanitizers). -/
def semicolonChar : Char := Char.ofNat 59

/-- Single-quote character (the regex `[;'\\]` in the sanitizers). -/
def quoteChar : Char := Char.ofNat 39

/-- Backslash character (the regex `[;'\\]` in the sanitizers). -/
def backslashChar : Char := Char.ofNat 92

/-- `re.search(r"[;'\\]", url)` of the sanitizers: does the string contain a
semicolon, single quote or backslash? -/
def hasForbiddenChar (s : String) : Bool :=
  s.data.any (fun c => c = semicolonChar || c = quoteChar || c = backslashChar)

/-! ## Timestamp codec (abstraction of isoformat / fromisoformat) -/

/-- Value of an ASCII digit. -/
def digitVal (c : Char) : Option Nat :=
  if 48 ≤ c.toNat ∧ c.toNat ≤ 57 then some (c.toNat - 48) else none

/-- Parse a nonempty all-digit character list as a natural number. -/
def parseNatChars : List Char → Option Nat
  | [] => none
  | [c] => digitVal c
  | c :: rest =>
    match digitVal c, parseNatChars rest with
    | some d, some n => some (d * 10 ^ rest.length + n)
    | _, _ => none

/-- Model of `datetime.fromisoformat` wrapped in try/except: a fallible parse
back to the integer timestamp. -/
def parse_time (s : String) : Option Int :=
  (parseNatChars s.data).map Int.ofNat

/-- Model of `datetime.isoformat`: render the integer timestamp. -/
def render_time (t : Int) : String := toString t

/-! ## Ads (rows of the `ads` table / candidate dicts of `collect_ads`) -/

/-- One candidate/row: the dict `\x7bid, title, href, price, city\x7d` built by
`collect_ads` and stored by `save_ad`.  Only `id` drives the control logic. -/
structure Ad where
  id : String
  title : String
  price : String
  href : String
  city : String
deriving DecidableEq, Repr

/-! ## Storage (Drom.py lines 191-267, autoru.py lines 216-272) -/

/-- The SQLite-backed `Storage`: `settings` key/value table, `ads` table
(primary key `ad_id`), and Drom's auxiliary `urls` table. -/
structure Store where
  settings : String → Option String
  ads : List Ad
  urls : List String

/-- A freshly created database (all tables empty). -/
def emptyStore : Store := ⟨fun _ => none, [], []⟩

/-- `Storage.get_kv`. -/
def get_kv (st : Store) (k : String) : Option String := st.settings k

/-- `Storage.set_kv`: INSERT ... ON CONFLICT(key) DO UPDATE (upsert). -/
def set_kv (st : Store) (k v : String) : Store :=
  { st with settings := fun k2 => if k2 = k then some v else st.settings k2 }

/-- `Storage.ensure_expiry_once`: writes `expiry_at = now + days` (in seconds)
and `expired_lock = "false"` only when `expiry_at` is unset (Python truthiness
on the raw value). -/
def ensure_expiry_once (st : Store) (days now : Int) : Store :=
  if optTruthy (get_kv st KEY_EXPIRY_AT) then st
  else
    set_kv (set_kv st KEY_EXPIRY_AT (render_time (now + days * 86400)))
      KEY_EXPIRED_LOCK "false"

/-- `Storage.get_expiry`: `None` on a falsy raw value, fallible parse
otherwise. -/
def get_expiry (st : Store) : Option Int :=
  match get_kv st KEY_EXPIRY_AT with
  | none => none
  | some raw => if raw = "" then none else parse_time raw

/-- `Storage.is_locked`: the stored value equals the string "true". -/
def is_locked (st : Store) : Bool :=
  decide (get_kv st KEY_EXPIRED_LOCK = some "true")

/-- `Storage.lock_forever`. -/
def lock_forever (st : Store) : Store := set_kv st KEY_EXPIRED_LOCK "true"

/-- `sanitize_url_drom` (Drom.py lines 55-66): empty check, strip, length
bound, lowercase domain allow-list, forbidden-character regex. -/
def sanitize_url_drom (url : String) : Option String :=
  if url = "" then none
  else if 2000 < (pyStrip url).data.length then none
  else if ¬(pyStartsWith (pyLower (pyStrip url)) "https://auto.drom.ru" ||
        pyStartsWith (pyLower (pyStrip url)) "https://www.drom.ru" ||
        pyStartsWith (pyLower (pyStrip url)) "https://drom.ru") then none
  else if hasForbiddenChar (pyStrip url) then none
  else some (pyStrip url)

/-- INSERT OR IGNORE into the `urls` table. -/
def insert_url (st : Store) (u : String) : Store :=
  if st.urls.contains u then st else { st with urls := st.urls ++ [u] }

/-- `Storage.set_watch_url` (Drom.py lines 242-252): on a sanitized URL store
it under `watch_url` and record it in `urls`; otherwise reject with a reason
and change nothing. -/
def set_watch_url (st : Store) (url : String) : Store × Bool × String :=
  match sanitize_url_drom url with
  | none => (st, false, "Недопустимый URL (только https://auto.drom.ru/ ... )")
  | some s => (insert_url (set_kv st KEY_WATCH_URL s) s, true, "URL установлен")

/-- `Storage.get_watch_url`. -/
def get_watch_url (st : Store) : Option String := get_kv st KEY_WATCH_URL

/-- The ad ids currently stored (the `ads` primary-key column). -/
def adIds (st : Store) : List String := st.ads.map Ad.id

/-- `Storage.is_new_ad`: no row with this `ad_id`. -/
def is_new_ad (st : Store) (adId : String) : Bool :=
  !(st.ads.any (fun r => r.id = adId))

/-- `Storage.save_ad`: INSERT OR IGNORE keyed on `ad_id`. -/
def save_ad (st : Store) (ad : Ad) : Store :=
  if st.ads.any (fun r => r.id = ad.id) then st
  else { st with ads := st.ads ++ [ad] }

/-! ## ParserService lifecycle (Drom.py lines 438-529, autoru.py 466-584) -/

/-- The asyncio task handle: `done` mirrors `task.done()`. -/
structure TaskH where
  done : Bool
deriving DecidableEq, Repr

/-- `ParserService` lifecycle state: the polling interval plus the `_task`
and `_stop_event` fields. -/
structure Svc where
  interval : Nat
  task : Option TaskH
  stop_event : Option Bool
deriving DecidableEq, Repr

/-- `ParserService.is_running`: `_task is not None and not _task.done()`. -/
def is_running (v : Svc) : Bool :=
  match v.task with
  | some t => !t.done
  | none => false

/-- `ParserService.start`: no-op when running; otherwise a fresh (unset) stop
event and a fresh live task. -/
def start (v : Svc) : Svc :=
  if is_running v then v
  else { v with task := some ⟨false⟩, stop_event := some false }

/-- `ParserService.stop`: no-op when not running; otherwise set the stop
event, wait for the task at most `interval + 5` seconds (`taskExit` is how
long the task actually needs), and clear `_task`/`_stop_event` regardless of
whether the wait timed out.  Returns the new state and the time waited. -/
def stop (v : Svc) (taskExit : Nat) : Svc × Nat :=
  if ¬(is_running v = true) then (v, 0)
  else ({ v with task := none, stop_event := none }, min taskExit (v.interval + 5))

/-! ## Whole-system state and command handlers -/

/-- Combined state: the persisted store plus the parser service. -/
structure Sys where
  store : Store
  svc : Svc

/-- The menu buttons (`BTN_TOGGLE`, `BTN_SET_URL`). -/
inductive Btn where
  | toggle
  | set_url
deriving DecidableEq, Repr

/-- The pieces of `Config` the menu handler writes into the store before a
start (`cfg.proxy`, `cfg.chromedriver_path`, `cfg.profile_path`). -/
structure BotCfg where
  proxy : Option String
  chromedriver_path : Option String
  profile_path : Option String

/-- `if value: store.set_kv(key, value)` for an optional config string. -/
def maybe_set_kv (st : Store) (k : String) (v : Option String) : Store :=
  if optTruthy v then set_kv st k (v.getD "") else st

/-- The handlers' expiry test `expiry and now >= expiry` (a `None` or
unparsable expiry is falsy). -/
def expiredNow (st : Store) (now : Int) : Bool :=
  match get_expiry st with
  | some e => decide (e ≤ now)
  | none => false

/-- `show_menu` (Drom.py lines 532-547): binds the chat id of the first user
when unset; display only otherwise. -/
def show_menu (chatId : String) (s : Sys) : Sys :=
  if optTruthy (get_kv s.store KEY_CHAT_ID) then s
  else { s with store := set_kv s.store KEY_CHAT_ID chatId }

/-- `menu_button` (Drom.py lines 552-623).  The toggle branch: when locked or
past expiry, stop the service if running, latch the lock if not yet latched,
and refuse; otherwise require a watch URL and chat id, then toggle the
service (persisting the optional config paths before a start).  The set-URL
branch only changes per-user chat mode, never this state. -/
def menu_button (data : Btn) (now : Int) (cfg : BotCfg) (taskExit : Nat)
    (s : Sys) : Sys :=
  let locked := is_locked s.store
  let running := is_running s.svc
  match data with
  | .toggle =>
    if locked || expiredNow s.store now then
      let s1 := if running then { s with svc := (stop s.svc taskExit).1 } else s
      if !locked then { s1 with store := lock_forever s1.store } else s1
    else if ¬(optTruthy (get_watch_url s.store) = true) then s
    else if ¬(optTruthy (get_kv s.store KEY_CHAT_ID) = true) then s
    else if running then { s with svc := (stop s.svc taskExit).1 }
    else
      let st1 := maybe_set_kv s.store KEY_PROXY cfg.proxy
      let st2 := maybe_set_kv st1 KEY_CHROMEDRIVER cfg.chromedriver_path
      let st3 := maybe_set_kv st2 KEY_PROFILE_PATH cfg.profile_path
      { store := st3, svc := start s.svc }
  | .set_url => s

/-- `text_message` (Drom.py lines 625-654): refused wholesale when locked or
past expiry; otherwise binds the chat id when unset and, in URL mode, runs
`set_watch_url` on the stripped text. -/
def text_message (modeSetUrl : Bool) (textIn chatId : String) (now : Int)
    (s : Sys) : Sys :=
  if is_locked s.store || expiredNow s.store now then s
  else
    let s1 :=
      if optTruthy (get_kv s.store KEY_CHAT_ID) then s
      else { s with store := set_kv s.store KEY_CHAT_ID chatId }
    if modeSetUrl then
      { s1 with store := (set_watch_url s1.store (pyStrip textIn)).1 }
    else s1

/-- `expiry_job` (Drom.py lines 657-672): when not locked, expiry parsed and
`now >= expiry`, first stop the service if it is running, then latch the
lock. -/
def expiry_job (now : Int) (taskExit : Nat) (s : Sys) : Sys :=
  if !(is_locked s.store) &&
      (match get_expiry s.store with
       | some e => decide (e ≤ now)
       | none => false) then
    { (if is_running s.svc then { s with svc := (stop s.svc taskExit).1 } else s) with
      store :=
        lock_forever
          (if is_running s.svc then { s with svc := (stop s.svc taskExit).1 } else s).store }
  else s

/-- One operation on the store and service: `lock_forever`,
`ensure_expiry_once`, `set_watch_url`, the three command handlers, a watchdog
run, and raw `start`/`stop`. -/
inductive Op where
  | opLock
  | opEnsure (days now : Int)
  | opSetUrl (u : String)
  | opShowMenu (chatId : String)
  | opMenu (data : Btn) (now : Int) (cfg : BotCfg) (taskExit : Nat)
  | opText (modeSetUrl : Bool) (textIn chatId : String) (now : Int)
  | opWatchdog (now : Int) (taskExit : Nat)
  | opStart
  | opStop (taskExit : Nat)

/-- Apply one operation to the system state. -/
def applyOp (s : Sys) : Op → Sys
  | .opLock => { s with store := lock_forever s.store }
  | .opEnsure days now => { s with store := ensure_expiry_once s.store days now }
  | .opSetUrl u => { s with store := (set_watch_url s.store u).1 }
  | .opShowMenu chatId => show_menu chatId s
  | .opMenu data now cfg taskExit => menu_button data now cfg taskExit s
  | .opText m t c now => text_message m t c now s
  | .opWatchdog now taskExit => expiry_job now taskExit s
  | .opStart => { s with svc := start s.svc }
  | .opStop taskExit => { s with svc := (stop s.svc taskExit).1 }

/-- Apply a sequence of operations in order. -/
def applyOps (s : Sys) (ops : List Op) : Sys := ops.foldl applyOp s

/-! ## The polling loop body: candidate processing

`ParserService._run` iterates `for ad in reversed(ads)`.  In Drom.py/youla.py
(lines 499-505 / 427-433) the body is: if `is_new_ad` then `_send_ad` (which
swallows every delivery error internally) and then `save_ad`.  In autoru.py
(lines 543-560) the body is: skip if not new; fetch the posting date; if the
freshness filter rejects, `save_ad` without notifying; otherwise `_send_ad`
(whose plain-text fallback is NOT wrapped in try/except and so can raise,
skipping the subsequent `save_ad`) and then `save_ad`. -/

/-- Drom/youla candidate processing, in the order the loop visits candidates
(already-reversed list).  Returns the final store and the candidates passed
to the dispatcher, in dispatch order. -/
def dromProcess (st : Store) : List Ad → Store × List Ad
  | [] => (st, [])
  | ad :: rest =>
    if is_new_ad st ad.id then
      let r := dromProcess (save_ad st ad) rest
      (r.1, ad :: r.2)
    else dromProcess st rest

/-- One Drom/youla tick over the adapter's (newest-first) list: process it in
reversed order. -/
def processTickDrom (st : Store) (ads : List Ad) : Store × List Ad :=
  dromProcess st ads.reverse

/-- A whole Drom/youla run: a sequence of ticks, threading the store and
concatenating the dispatched candidates. -/
def dromRun (st : Store) : List (List Ad) → Store × List Ad
  | [] => (st, [])
  | t :: ts =>
    let r := processTickDrom st t
    let r2 := dromRun r.1 ts
    (r2.1, r.2 ++ r2.2)

/-- `is_fresh` (autoru.py lines 372-377), with the clock read `today` made an
explicit parameter: an unparsed date is stale, otherwise the age must lie
between 0 and `fresh_days` days inclusive. -/
def is_fresh (created : Option Int) (fresh_days : Int) (today : Int) : Bool :=
  match created with
  | none => false
  | some c => decide (0 ≤ today - c) && decide (today - c ≤ fresh_days)

/-- autoru candidate processing over the already-reversed list.  `sendOk`
says whether `_send_ad` completes without raising for a given id (its
plain-text delivery is uncaught); `details` is the posting date fetched by
`fetch_ad_details_sync` (which swallows its own errors into `None`).
Returns the final store and the ids passed to the dispatcher, in dispatch
order; a raising dispatch is still a dispatch but skips `save_ad`. -/
def autoProcess (sendOk : String → Bool) (details : String → Option Int)
    (fresh_days today : Int) (st : Store) : List Ad → Store × List String
  | [] => (st, [])
  | ad :: rest =>
    if ¬(is_new_ad st ad.id = true) then
      autoProcess sendOk details fresh_days today st rest
    else if decide (0 ≤ fresh_days) && !(is_fresh (details ad.id) fresh_days today) then
      autoProcess sendOk details fresh_days today (save_ad st ad) rest
    else if sendOk ad.id then
      ((autoProcess sendOk details fresh_days today (save_ad st ad) rest).1,
        ad.id :: (autoProcess sendOk details fresh_days today (save_ad st ad) rest).2)
    else
      ((autoProcess sendOk details fresh_days today st rest).1,
        ad.id :: (autoProcess sendOk details fresh_days today st rest).2)

/-- One autoru tick over the adapter's (newest-first) list. -/
def processTickAuto (sendOk : String → Bool) (details : String → Option Int)
    (fresh_days today : Int) (st : Store) (ads : List Ad) : Store × List String :=
  autoProcess sendOk details fresh_days today st ads.reverse

/-! ## The loop boundary (error semantics of `_run`)

In all three sources the `while not stop_event.is_set():` loop sits inside a
single `try: ... except Exception as e: print(...)` (Drom.py lines 487-512).
An exception escaping one iteration therefore leaves the `while` entirely:
it is caught and logged outside the loop, and the task returns. -/

/-- Outcome of one iteration body: it completes, or an uncaught exception
escapes it. -/
inductive IterOutcome where
  | ok
  | raiseErr
deriving DecidableEq, Repr

/-- Why the background task returned. -/
inductive ExitReason where
  | stopObserved
  | crashCaught
  | scheduleOver
deriving DecidableEq, Repr

/-- The try/while structure of `_run`: `stopAt` is the iteration index from
which the stop event reads as set at loop top, `i` the current index, and the
list the scheduled iteration outcomes.  Returns how many iterations ran and
why the task returned (`scheduleOver` = schedule exhausted while still
looping). -/
def parser_loop (stopAt : Option Nat) (i : Nat) :
    List IterOutcome → Nat × ExitReason
  | [] => (i, .scheduleOver)
  | o :: rest =>
    if (match stopAt with
        | some k => decide (k ≤ i)
        | none => false) then (i, .stopObserved)
    else
      match o with
      | .raiseErr => (i + 1, .crashCaught)
      | .ok => parser_loop stopAt (i + 1) rest

/-- The unset-configuration guard of one `_run` iteration (Drom.py lines
489-496): when the watch URL or chat id is falsy the body waits on the stop
event for up to one interval; a timeout `continue`s, but if the event is set
during the wait, `wait_for` returns normally and control falls through to
`collect_ads`.  Returns whether the Extraction Adapter is invoked this
iteration. -/
def drom_iter_invokes_adapter (url chat_id : Option String)
    (eventSetDuringWait : Bool) : Bool :=
  if !(optTruthy url) || !(optTruthy chat_id) then eventSetDuringWait
  else true

/-! ## Derived notions used by the statements -/

/-- How many of the dispatched candidates carry the given id. -/
def countId (l : List Ad) (x : String) : Nat :=
  l.countP (fun a => decide (a.id = x))

/-- Acceptance condition of `sanitize_url_drom`, spelled out: nonempty, at
most 2000 characters once stripped, stripped-and-lowercased form starts with
one of the three drom.ru prefixes, and the stripped form contains no
semicolon, single quote or backslash. -/
def dromUrlOk (url : String) : Prop :=
  url ≠ "" ∧
  (pyStrip url).data.length ≤ 2000 ∧
  (pyStartsWith (pyLower (pyStrip url)) "https://auto.drom.ru" = true ∨
    pyStartsWith (pyLower (pyStrip url)) "https://www.drom.ru" = true ∨
    pyStartsWith (pyLower (pyStrip url)) "https://drom.ru" = true) ∧
  ∀ c ∈ (pyStrip url).data,
    ¬(c = semicolonChar ∨ c = quoteChar ∨ c = backslashChar)

/-- States reachable after startup: `main` runs `ensure_expiry_once` before
any handler, so `expiry_at` holds a (truthy) value from then on; the locked
part is the property whose preservation is at stake. -/
def LockInv (s : Sys) : Prop :=
  optTruthy (get_kv s.store KEY_EXPIRY_AT) = true ∧ is_locked s.store = true

end Parsers

namespace Parsers

/-! # Lemmas about the storage model -/

theorem get_kv_set_kv (st : Store) (k v k2 : String) :
    get_kv (set_kv st k v) k2 = if k2 = k then some v else get_kv st k2 := rfl

theorem get_kv_set_kv_ne (st : Store) (k v k2 : String) (h : k ≠ k2) :
    get_kv (set_kv st k v) k2 = get_kv st k2 := by
  rw [get_kv_set_kv]
  exact if_neg (fun hh => h hh.symm)

theorem is_locked_set_kv (st : Store) (k v : String) (h : k ≠ KEY_EXPIRED_LOCK) :
    is_locked (set_kv st k v) = is_locked st := by
  unfold is_locked
  rw [get_kv_set_kv_ne st k v _ h]

theorem is_locked_lock_forever (st : Store) : is_locked (lock_forever st) = true := by
  unfold lock_forever is_locked
  rw [get_kv_set_kv]
  simp

theorem get_kv_insert_url (st : Store) (u : String) (k : String) :
    get_kv (insert_url st u) k = get_kv st k := by
  unfold insert_url get_kv
  split <;> rfl

theorem get_kv_set_watch_url (st : Store) (url k : String) (h : k ≠ KEY_WATCH_URL) :
    get_kv (set_watch_url st url).1 k = get_kv st k := by
  unfold set_watch_url
  cases hs : sanitize_url_drom url with
  | none => rfl
  | some s =>
    simp only
    rw [get_kv_insert_url, get_kv_set_kv_ne _ _ _ _ (fun hh => h hh.symm)]

theorem get_kv_maybe_set_kv (st : Store) (k : String) (v : Option String)
    (k2 : String) (h : k ≠ k2) :
    get_kv (maybe_set_kv st k v) k2 = get_kv st k2 := by
  unfold maybe_set_kv
  split
  · exact get_kv_set_kv_ne st k _ k2 h
  · rfl

theorem get_kv_save_ad (st : Store) (ad : Ad) (k : String) :
    get_kv (save_ad st ad) k = get_kv st k := by
  unfold save_ad get_kv
  split <;> rfl

/-! # Lemmas about the ads table -/

theorem is_new_ad_iff (st : Store) (x : String) :
    is_new_ad st x = true ↔ x ∉ adIds st := by
  simp [is_new_ad, adIds, List.any_eq_true, List.mem_map]

theorem mem_adIds_save_ad_self (st : Store) (ad : Ad) :
    ad.id ∈ adIds (save_ad st ad) := by
  unfold save_ad adIds
  split
  · rename_i h
    rw [List.any_eq_true] at h
    obtain ⟨a, ha, hid⟩ := h
    rw [decide_eq_true_eq] at hid
    exact List.mem_map.mpr ⟨a, ha, hid⟩
  · simp

theorem mem_adIds_save_ad_of_mem (st : Store) (ad : Ad) (x : String)
    (h : x ∈ adIds st) : x ∈ adIds (save_ad st ad) := by
  unfold save_ad adIds
  split
  · exact h
  · unfold adIds at h
    simp only [List.map_append, List.mem_append]
    exact Or.inl h

theorem is_new_ad_save_ad (st : Store) (ad : Ad) (x : String) :
    is_new_ad (save_ad st ad) x = true ↔
      is_new_ad st x = true ∧ x ≠ ad.id := by
  rw [is_new_ad_iff, is_new_ad_iff]
  constructor
  · intro h
    refine ⟨fun hx => h (mem_adIds_save_ad_of_mem st ad x hx), fun hx => ?_⟩
    exact h (hx ▸ mem_adIds_save_ad_self st ad)
  · rintro ⟨h1, h2⟩ hmem
    unfold save_ad adIds at hmem
    revert hmem
    split
    · exact fun hmem => h1 hmem
    · intro hmem
      simp only [List.map_append, List.mem_append, List.map_cons,
        List.map_nil, List.mem_cons, List.not_mem_nil] at hmem
      rcases hmem with h | h
      · exact h1 h
      · rcases h with h | h
        · exact h2 h
        · exact h.elim

/-! # Lemmas about the service lifecycle -/

theorem is_running_stop_fst (v : Svc) (t : Nat) :
    is_running (stop v t).1 = false := by
  unfold stop
  split
  · rename_i h
    simpa using h
  · rfl

theorem stop_store_irrelevant (s : Sys) (t : Nat) :
    ({ s with svc := (stop s.svc t).1 } : Sys).store = s.store := rfl

/-- When already locked, the toggle handler never leaves the service
running: it stops a running service and refuses to start an idle one. -/
theorem menu_button_toggle_locked_svc (now : Int) (cfg : BotCfg) (t : Nat)
    (s : Sys) (hl : is_locked s.store = true) :
    is_running ((menu_button .toggle now cfg t s).svc) = false := by
  unfold menu_button
  simp only [hl, Bool.true_or, if_true, Bool.not_true]
  by_cases hr : is_running s.svc = true
  · simp [hr, is_running_stop_fst]
  · rw [Bool.not_eq_true] at hr
    simp [hr]

/-- When already locked, the menu handler never changes the store. -/
theorem menu_button_store_of_locked (data : Btn) (now : Int) (cfg : BotCfg)
    (t : Nat) (s : Sys) (hl : is_locked s.store = true) :
    (menu_button data now cfg t s).store = s.store := by
  cases data with
  | set_url => rfl
  | toggle =>
    unfold menu_button
    simp only [hl, Bool.true_or, if_true, Bool.not_true]
    by_cases hr : is_running s.svc = true
    · simp [hr]
    · rw [Bool.not_eq_true] at hr
      simp [hr]

/-- When already locked and idle, the toggle handler is the identity: the
start request is refused and the state is unchanged. -/
theorem menu_button_toggle_locked_idle (now : Int) (cfg : BotCfg) (t : Nat)
    (s : Sys) (hl : is_locked s.store = true)
    (hr : is_running s.svc = false) :
    menu_button .toggle now cfg t s = s := by
  unfold menu_button
  simp [hl, hr]

/-- When already locked, the text handler is refused outright. -/
theorem text_message_of_locked (m : Bool) (t c : String) (now : Int)
    (s : Sys) (hl : is_locked s.store = true) :
    text_message m t c now s = s := by
  unfold text_message
  simp [hl]

/-- When already locked, the watchdog run changes nothing. -/
theorem expiry_job_of_locked (now : Int) (t : Nat) (s : Sys)
    (hl : is_locked s.store = true) :
    expiry_job now t s = s := by
  unfold expiry_job
  simp [hl]

/-! # The lock invariant is preserved by every operation -/

theorem applyOp_LockInv (s : Sys) (op : Op) (h : LockInv s) :
    LockInv (applyOp s op) := by
  obtain ⟨hexp, hlock⟩ := h
  have hne1 : KEY_EXPIRED_LOCK ≠ KEY_EXPIRY_AT := by decide
  have hne2 : KEY_WATCH_URL ≠ KEY_EXPIRY_AT := by decide
  have hne3 : KEY_WATCH_URL ≠ KEY_EXPIRED_LOCK := by decide
  have hne4 : KEY_CHAT_ID ≠ KEY_EXPIRY_AT := by decide
  have hne5 : KEY_CHAT_ID ≠ KEY_EXPIRED_LOCK := by decide
  cases op with
  | opLock =>
    constructor
    · show optTruthy (get_kv (lock_forever s.store) KEY_EXPIRY_AT) = true
      unfold lock_forever
      rw [get_kv_set_kv_ne _ _ _ _ hne1]
      exact hexp
    · exact is_locked_lock_forever s.store
  | opEnsure days now =>
    have heq : ensure_expiry_once s.store days now = s.store := by
      unfold ensure_expiry_once
      rw [if_pos hexp]
    refine ⟨?_, ?_⟩
    · show optTruthy (get_kv (ensure_expiry_once s.store days now) KEY_EXPIRY_AT) = true
      rw [heq]
      exact hexp
    · show is_locked (ensure_expiry_once s.store days now) = true
      rw [heq]
      exact hlock
  | opSetUrl u =>
    constructor
    · show optTruthy (get_kv (set_watch_url s.store u).1 KEY_EXPIRY_AT) = true
      rw [get_kv_set_watch_url _ _ _ (fun hh => hne2 hh.symm)]
      exact hexp
    · show is_locked (set_watch_url s.store u).1 = true
      unfold is_locked
      rw [get_kv_set_watch_url _ _ _ (fun hh => hne3 hh.symm)]
      exact hlock
  | opShowMenu c =>
    show LockInv (show_menu c s)
    unfold show_menu
    split
    · exact ⟨hexp, hlock⟩
    · constructor
      · show optTruthy (get_kv (set_kv s.store KEY_CHAT_ID c) KEY_EXPIRY_AT) = true
        rw [get_kv_set_kv_ne _ _ _ _ hne4]
        exact hexp
      · show is_locked (set_kv s.store KEY_CHAT_ID c) = true
        rw [is_locked_set_kv _ _ _ hne5]
        exact hlock
  | opMenu data now cfg t =>
    have hst := menu_button_store_of_locked data now cfg t s hlock
    refine ⟨?_, ?_⟩
    · show optTruthy (get_kv (menu_button data now cfg t s).store KEY_EXPIRY_AT) = true
      rw [hst]
      exact hexp
    · show is_locked (menu_button data now cfg t s).store = true
      rw [hst]
      exact hlock
  | opText m tx c now =>
    have hst := text_message_of_locked m tx c now s hlock
    refine ⟨?_, ?_⟩
    · show optTruthy (get_kv (text_message m tx c now s).store KEY_EXPIRY_AT) = true
      rw [hst]
      exact hexp
    · show is_locked (text_message m tx c now s).store = true
      rw [hst]
      exact hlock
  | opWatchdog now t =>
    have hst := expiry_job_of_locked now t s hlock
    refine ⟨?_, ?_⟩
    · show optTruthy (get_kv (expiry_job now t s).store KEY_EXPIRY_AT) = true
      rw [hst]
      exact hexp
    · show is_locked (expiry_job now t s).store = true
      rw [hst]
      exact hlock
  | opStart => exact ⟨hexp, hlock⟩
  | opStop t => exact ⟨hexp, hlock⟩

theorem applyOps_LockInv (s : Sys) (ops : List Op) (h : LockInv s) :
    LockInv (applyOps s ops) := by
  induction ops generalizing s with
  | nil => exact h
  | cons op rest ih => exact ih _ (applyOp_LockInv s op h)

/-! # Lemmas about candidate processing -/

theorem countId_nil (x : String) : countId [] x = 0 := rfl

theorem countId_cons (a : Ad) (l : List Ad) (x : String) :
    countId (a :: l) x = countId l x + (if a.id = x then 1 else 0) := by
  unfold countId
  rw [List.countP_cons]
  split <;> simp_all

theorem countId_append (l1 l2 : List Ad) (x : String) :
    countId (l1 ++ l2) x = countId l1 x + countId l2 x := by
  unfold countId
  exact List.countP_append _ _ _

theorem dromProcess_mono (l : List Ad) (st : Store) (x : String)
    (h : x ∈ adIds st) : x ∈ adIds (dromProcess st l).1 := by
  induction l generalizing st with
  | nil => exact h
  | cons ad rest ih =>
    unfold dromProcess
    split
    · exact ih (save_ad st ad) (mem_adIds_save_ad_of_mem st ad x h)
    · exact ih st h

/-- The inner dedup invariant of one Drom/youla tick: an id already stored is
never dispatched, any id is dispatched at most once, and a dispatched id ends
up stored. -/
theorem dromProcess_count (l : List Ad) (st : Store) (x : String) :
    (x ∈ adIds st → countId (dromProcess st l).2 x = 0) ∧
    countId (dromProcess st l).2 x ≤ 1 ∧
    (1 ≤ countId (dromProcess st l).2 x → x ∈ adIds (dromProcess st l).1) := by
  induction l generalizing st with
  | nil => simp [dromProcess, countId]
  | cons ad rest ih =>
    unfold dromProcess
    split
    · rename_i hnew
      have hnotin : ad.id ∉ adIds st := (is_new_ad_iff st ad.id).mp hnew
      have ih' := ih (save_ad st ad)
      show (x ∈ adIds st →
          countId (ad :: (dromProcess (save_ad st ad) rest).2) x = 0) ∧
        countId (ad :: (dromProcess (save_ad st ad) rest).2) x ≤ 1 ∧
        (1 ≤ countId (ad :: (dromProcess (save_ad st ad) rest).2) x →
          x ∈ adIds (dromProcess (save_ad st ad) rest).1)
      rw [countId_cons]
      by_cases hx : ad.id = x
      · subst hx
        have hz : countId (dromProcess (save_ad st ad) rest).2 ad.id = 0 :=
          ih'.1 (mem_adIds_save_ad_self st ad)
        refine ⟨fun hmem => absurd hmem hnotin, ?_, fun _ => ?_⟩
        · simp [hz]
        · exact dromProcess_mono rest (save_ad st ad) ad.id
            (mem_adIds_save_ad_self st ad)
      · rw [if_neg hx]
        refine ⟨fun hmem => ?_, ?_, fun hge => ?_⟩
        · have := ih'.1 (mem_adIds_save_ad_of_mem st ad x hmem)
          simpa using this
        · simpa using ih'.2.1
        · exact ih'.2.2 (by simpa using hge)
    · exact ih st

/-- Every candidate handed to the dispatcher by a Drom/youla tick is stored
before the tick ends. -/
theorem dromProcess_dispatch_recorded (l : List Ad) (st : Store) (a : Ad)
    (h : a ∈ (dromProcess st l).2) : a.id ∈ adIds (dromProcess st l).1 := by
  induction l generalizing st with
  | nil => simp [dromProcess] at h
  | cons ad rest ih =>
    unfold dromProcess at h ⊢
    revert h
    split
    · intro h
      show a.id ∈ adIds (dromProcess (save_ad st ad) rest).1
      have h2 : a = ad ∨ a ∈ (dromProcess (save_ad st ad) rest).2 := by
        simpa using h
      rcases h2 with h2 | h2
      · subst h2
        exact dromProcess_mono rest (save_ad st a) a.id
          (mem_adIds_save_ad_self st a)
      · exact ih (save_ad st ad) h2
    · intro h
      exact ih st h

/-- A tick whose candidates are all unseen and pairwise distinct dispatches
them all, in exactly the order processed. -/
theorem dromProcess_all_new (l : List Ad) (st : Store)
    (hnew : ∀ a ∈ l, is_new_ad st a.id = true)
    (hdist : l.Pairwise (fun a b => a.id ≠ b.id)) :
    (dromProcess st l).2 = l := by
  induction l generalizing st with
  | nil => rfl
  | cons ad rest ih =>
    obtain ⟨hhead, htail⟩ := List.pairwise_cons.mp hdist
    unfold dromProcess
    rw [if_pos (hnew ad (List.mem_cons_self ad rest))]
    show ad :: (dromProcess (save_ad st ad) rest).2 = ad :: rest
    congr 1
    refine ih (save_ad st ad) (fun a ha => ?_) htail
    exact (is_new_ad_save_ad st ad a.id).mpr
      ⟨hnew a (List.mem_cons_of_mem ad ha), fun he => hhead a ha he.symm⟩

theorem dromRun_mono (tickss : List (List Ad)) (st : Store) (x : String)
    (h : x ∈ adIds st) : x ∈ adIds (dromRun st tickss).1 := by
  induction tickss generalizing st with
  | nil => exact h
  | cons t ts ih =>
    unfold dromRun
    exact ih (processTickDrom st t).1 (dromProcess_mono t.reverse st x h)

/-- The dedup invariant across a whole Drom/youla run. -/
theorem dromRun_count (tickss : List (List Ad)) (st : Store) (x : String) :
    (x ∈ adIds st → countId (dromRun st tickss).2 x = 0) ∧
    countId (dromRun st tickss).2 x ≤ 1 ∧
    (1 ≤ countId (dromRun st tickss).2 x → x ∈ adIds (dromRun st tickss).1) := by
  induction tickss generalizing st with
  | nil => simp [dromRun, countId]
  | cons t ts ih =>
    have h1 := dromProcess_count t.reverse st x
    have ih' := ih (processTickDrom st t).1
    simp only [processTickDrom] at ih'
    unfold dromRun
    simp only [processTickDrom]
    rw [countId_append]
    refine ⟨fun hmem => ?_, ?_, fun hge => ?_⟩
    · have hz1 := h1.1 hmem
      have hz2 := ih'.1 (dromProcess_mono t.reverse st x hmem)
      omega
    · rcases Nat.eq_zero_or_pos (countId (dromProcess st t.reverse).2 x) with hz | hpos
      · have := ih'.2.1
        omega
      · have hmem1 := h1.2.2 hpos
        have hz2 := ih'.1 hmem1
        have := h1.2.1
        omega
    · rcases Nat.eq_zero_or_pos (countId (dromProcess st t.reverse).2 x) with hz | hpos
      · have hge2 : 1 ≤ countId (dromRun (dromProcess st t.reverse).1 ts).2 x := by
          omega
        exact ih'.2.2 hge2
      · have hmem1 := h1.2.2 hpos
        have hfin := dromRun_mono ts (dromProcess st t.reverse).1 x hmem1
        simpa [processTickDrom] using hfin

theorem autoProcess_mono (sendOk : String → Bool) (details : String → Option Int)
    (fresh_days today : Int) (l : List Ad) (st : Store) (x : String)
    (h : x ∈ adIds st) :
    x ∈ adIds (autoProcess sendOk details fresh_days today st l).1 := by
  induction l generalizing st with
  | nil => exact h
  | cons ad rest ih =>
    unfold autoProcess
    split
    · exact ih st h
    · split
      · exact ih (save_ad st ad) (mem_adIds_save_ad_of_mem st ad x h)
      · split
        · exact ih (save_ad st ad) (mem_adIds_save_ad_of_mem st ad x h)
        · exact ih st h

/-- An autoru dispatch whose `_send_ad` does not raise is always recorded. -/
theorem autoProcess_sendOk_recorded (sendOk : String → Bool)
    (details : String → Option Int) (fresh_days today : Int) (l : List Ad)
    (st : Store) (x : String)
    (hd : x ∈ (autoProcess sendOk details fresh_days today st l).2)
    (hs : sendOk x = true) :
    x ∈ adIds (autoProcess sendOk details fresh_days today st l).1 := by
  induction l generalizing st with
  | nil => simp [autoProcess] at hd
  | cons ad rest ih =>
    unfold autoProcess at hd ⊢
    revert hd
    split
    · exact fun hd => ih st hd
    · split
      · exact fun hd => ih (save_ad st ad) hd
      · split
        · intro hd
          show x ∈ adIds (autoProcess sendOk details fresh_days today (save_ad st ad) rest).1
          have h2 : x = ad.id ∨
              x ∈ (autoProcess sendOk details fresh_days today (save_ad st ad) rest).2 := by
            simpa using hd
          rcases h2 with h2 | h2
          · subst h2
            exact autoProcess_mono sendOk details fresh_days today rest
              (save_ad st ad) ad.id (mem_adIds_save_ad_self st ad)
          · exact ih (save_ad st ad) h2
        · rename_i hsend
          intro hd
          have h2 : x = ad.id ∨
              x ∈ (autoProcess sendOk details fresh_days today st rest).2 := by
            simpa using hd
          rcases h2 with h2 | h2
          · subst h2
            exact absurd hs hsend
          · exact ih st h2

/-- A candidate whose fetched posting date fails the freshness predicate is
never dispatched by an autoru tick, and any occurrence of it in the tick's
candidates ends up recorded. -/
theorem autoProcess_stale (sendOk : String → Bool)
    (details : String → Option Int) (fresh_days today : Int) (l : List Ad)
    (st : Store) (x : String) (hfd : 0 ≤ fresh_days)
    (hstale : is_fresh (details x) fresh_days today = false) :
    x ∉ (autoProcess sendOk details fresh_days today st l).2 ∧
    (x ∈ l.map Ad.id →
      x ∈ adIds (autoProcess sendOk details fresh_days today st l).1) := by
  induction l generalizing st with
  | nil => simp [autoProcess]
  | cons ad rest ih =>
    unfold autoProcess
    split
    · rename_i hnew
      have hmem : ad.id ∈ adIds st := by
        by_cases hx : ad.id ∈ adIds st
        · exact hx
        · exact absurd ((is_new_ad_iff st ad.id).mpr hx) hnew
      refine ⟨(ih st).1, fun hin => ?_⟩
      have hin2 : x = ad.id ∨ x ∈ rest.map Ad.id := by simpa using hin
      rcases hin2 with hin2 | hin2
      · subst hin2
        exact autoProcess_mono sendOk details fresh_days today rest st ad.id hmem
      · exact (ih st).2 hin2
    · split
      · refine ⟨(ih (save_ad st ad)).1, fun hin => ?_⟩
        have hin2 : x = ad.id ∨ x ∈ rest.map Ad.id := by simpa using hin
        rcases hin2 with hin2 | hin2
        · subst hin2
          exact autoProcess_mono sendOk details fresh_days today rest
            (save_ad st ad) ad.id (mem_adIds_save_ad_self st ad)
        · exact (ih (save_ad st ad)).2 hin2
      · rename_i hnew hnostale
        have hfresh : is_fresh (details ad.id) fresh_days today = true := by
          by_cases hc : is_fresh (details ad.id) fresh_days today = true
          · exact hc
          · exfalso
            apply hnostale
            rw [Bool.not_eq_true] at hc
            simp [hc, decide_eq_true_eq, hfd]
        have hx : x ≠ ad.id := by
          intro he
          rw [he, hfresh] at hstale
          exact Bool.noConfusion hstale
        split
        · refine ⟨fun hmem => ?_, fun hin => ?_⟩
          · have h2 : x = ad.id ∨
                x ∈ (autoProcess sendOk details fresh_days today (save_ad st ad) rest).2 := by
              simpa using hmem
            rcases h2 with h2 | h2
            · exact hx h2
            · exact (ih (save_ad st ad)).1 h2
          · have hin2 : x = ad.id ∨ x ∈ rest.map Ad.id := by simpa using hin
            rcases hin2 with hin2 | hin2
            · exact absurd hin2 hx
            · exact (ih (save_ad st ad)).2 hin2
        · refine ⟨fun hmem => ?_, fun hin => ?_⟩
          · have h2 : x = ad.id ∨
                x ∈ (autoProcess sendOk details fresh_days today st rest).2 := by
              simpa using hmem
            rcases h2 with h2 | h2
            · exact hx h2
            · exact (ih st).1 h2
          · have hin2 : x = ad.id ∨ x ∈ rest.map Ad.id := by simpa using hin
            rcases hin2 with hin2 | hin2
            · exact absurd hin2 hx
            · exact (ih st).2 hin2

/-! # Lemmas about the loop boundary -/

theorem parser_loop_crash (pre post : List IterOutcome) (i : Nat)
    (hpre : ∀ o ∈ pre, o = .ok) :
    parser_loop none i (pre ++ .raiseErr :: post) =
      (i + pre.length + 1, .crashCaught) := by
  induction pre generalizing i with
  | nil => simp [parser_loop]
  | cons o rest ih =>
    have ho : o = .ok := hpre o (List.mem_cons_self o rest)
    subst ho
    have htail : ∀ o ∈ rest, o = IterOutcome.ok :=
      fun o ho => hpre o (List.mem_cons_of_mem _ ho)
    have hrec := ih (i + 1) htail
    simp only [List.cons_append, parser_loop, Bool.false_eq_true, if_false,
      List.append_eq]
    rw [hrec]
    congr 1
    simp
    omega

theorem parser_loop_all_ok (outs : List IterOutcome) (i : Nat)
    (h : ∀ o ∈ outs, o = .ok) :
    parser_loop none i outs = (i + outs.length, .scheduleOver) := by
  induction outs generalizing i with
  | nil => simp [parser_loop]
  | cons o rest ih =>
    have ho : o = .ok := h o (List.mem_cons_self o rest)
    subst ho
    have hrec := ih (i + 1) (fun o ho => h o (List.mem_cons_of_mem _ ho))
    simp only [parser_loop, Bool.false_eq_true, if_false]
    rw [hrec]
    congr 1
    simp
    omega

/-! # Lemmas about the URL sanitizer -/

theorem sanitize_url_drom_of_ok (url : String) (h : dromUrlOk url) :
    sanitize_url_drom url = some (pyStrip url) := by
  obtain ⟨h1, h2, h3, h4⟩ := h
  have hb : (pyStartsWith (pyLower (pyStrip url)) "https://auto.drom.ru" ||
      pyStartsWith (pyLower (pyStrip url)) "https://www.drom.ru" ||
      pyStartsWith (pyLower (pyStrip url)) "https://drom.ru") = true := by
    rcases h3 with h3 | h3 | h3 <;> simp [h3]
  have hf : hasForbiddenChar (pyStrip url) = false := by
    unfold hasForbiddenChar
    rw [List.any_eq_false]
    intro c hc
    have := h4 c hc
    simp only [Bool.or_eq_true, decide_eq_true_eq, not_or] at this ⊢
    tauto
  unfold sanitize_url_drom
  rw [if_neg h1, if_neg (by omega), if_neg (by simp [hb]), if_neg (by simp [hf])]

theorem sanitize_url_drom_some_elim (url s : String)
    (h : sanitize_url_drom url = some s) :
    dromUrlOk url ∧ s = pyStrip url := by
  unfold sanitize_url_drom at h
  split at h
  · exact absurd h (by simp)
  · split at h
    · exact absurd h (by simp)
    · split at h
      · exact absurd h (by simp)
      · split at h
        · exact absurd h (by simp)
        · rename_i h1 h2 h3 h4
          refine ⟨⟨h1, by omega, ?_, ?_⟩, (Option.some.injEq _ _).mp h ▸ rfl⟩
          · rw [not_not] at h3
            rcases Bool.or_eq_true .. |>.mp h3 with h | h
            · rcases Bool.or_eq_true .. |>.mp h with h | h
              · exact Or.inl h
              · exact Or.inr (Or.inl h)
            · exact Or.inr (Or.inr h)
          · intro c hc hcontra
            have hft : hasForbiddenChar (pyStrip url) = true := by
              unfold hasForbiddenChar
              rw [List.any_eq_true]
              refine ⟨c, hc, ?_⟩
              rcases hcontra with h | h | h <;> simp [h]
            exact h4 hft

/-! # Claims -/

/-- C1: once the lock flag is true, no sequence of operations on the store
and service (lockForever, ensureExpirySet, setWatchedTarget, command
handlers, watchdog runs, start/stop) ever makes it false again, and a start
request issued while locked never transitions the orchestrator from Idle to
Running.  The first hypothesis records that `expiry_at` holds a value, which
`main` establishes through `ensure_expiry_once` before any operation can
run. -/
theorem c1_lock_monotone (s : Sys) (ops : List Op)
    (hexp : optTruthy (get_kv s.store KEY_EXPIRY_AT) = true)
    (hlock : is_locked s.store = true) :
    is_locked (applyOps s ops).store = true ∧
    (∀ (now : Int) (cfg : BotCfg) (taskExit : Nat),
      is_running s.svc = false →
      is_running ((menu_button .toggle now cfg taskExit s).svc) = false) := by
  refine ⟨(applyOps_LockInv s ops ⟨hexp, hlock⟩).2, fun now cfg t _ => ?_⟩
  exact menu_button_toggle_locked_svc now cfg t s hlock

/-- A concrete locked idle state for exercising C1. -/
def lockedIdleSys : Sys :=
  { store := set_kv (set_kv emptyStore KEY_EXPIRY_AT "100") KEY_EXPIRED_LOCK "true",
    svc := ⟨5, none, none⟩ }

/-- A concrete mixed operation sequence for exercising C1. -/
def sampleOps : List Op :=
  [.opStart, .opWatchdog 200 0, .opText true "x" "c" 200, .opStop 0, .opLock,
   .opEnsure 3 50, .opSetUrl "https://auto.drom.ru/region43/all/",
   .opShowMenu "77", .opMenu .toggle 200 ⟨none, none, none⟩ 0]

theorem c1_lock_monotone_witness :
    optTruthy (get_kv lockedIdleSys.store KEY_EXPIRY_AT) = true ∧
    is_locked lockedIdleSys.store = true ∧
    is_running lockedIdleSys.svc = false ∧
    is_locked (applyOps lockedIdleSys sampleOps).store = true ∧
    is_running ((menu_button .toggle 0 ⟨none, none, none⟩ 0 lockedIdleSys).svc) = false :=
  ⟨by decide, by decide, by decide,
   (c1_lock_monotone lockedIdleSys sampleOps (by decide) (by decide)).1,
   (c1_lock_monotone lockedIdleSys sampleOps (by decide) (by decide)).2
     0 ⟨none, none, none⟩ 0 (by decide)⟩

/-- C2 (amended): in the Drom/youla orchestrator, whose dispatch step
swallows every delivery error and records each dispatched candidate before
visiting the next, each distinct id is dispatched at most once across any
sequence of ticks from any starting store. -/
theorem c2_at_most_once_dispatch (st : Store) (tickss : List (List Ad))
    (x : String) :
    countId (dromRun st tickss).2 x ≤ 1 :=
  (dromRun_count tickss st x).2.1

/-- C2 counterexample: in the autoru orchestrator a tick whose plain-text
delivery raises dispatches the id but skips `save_ad`, so a later tick
dispatches the same id again — "a1" is dispatched twice across the service's
lifetime, refuting at-most-once as stated. -/
theorem c2_counterexample :
    ((processTickAuto (fun _ => false) (fun _ => some 0) 0 0 emptyStore
        [Ad.mk "a1" "t" "p" "h" "c"]).2 ++
      (processTickAuto (fun _ => true) (fun _ => some 0) 0 0
        (processTickAuto (fun _ => false) (fun _ => some 0) 0 0 emptyStore
          [Ad.mk "a1" "t" "p" "h" "c"]).1
        [Ad.mk "a1" "t" "p" "h" "c"]).2).count "a1" = 2 := by
  decide

/-- C3 (amended): in the Drom/youla orchestrator every candidate handed to
the dispatcher is recorded via `save_ad` regardless of the delivery outcome
(the dispatcher swallows all delivery errors); in the autoru orchestrator a
dispatched candidate is recorded only when `_send_ad` does not raise. -/
theorem c3_record_on_dispatch :
    (∀ (st : Store) (ads : List Ad) (a : Ad),
      a ∈ (processTickDrom st ads).2 →
      a.id ∈ adIds (processTickDrom st ads).1) ∧
    (∀ (sendOk : String → Bool) (details : String → Option Int)
        (fresh_days today : Int) (st : Store) (ads : List Ad) (x : String),
      x ∈ (processTickAuto sendOk details fresh_days today st ads).2 →
      sendOk x = true →
      x ∈ adIds (processTickAuto sendOk details fresh_days today st ads).1) := by
  constructor
  · intro st ads a h
    exact dromProcess_dispatch_recorded ads.reverse st a h
  · intro sendOk details fresh_days today st ads x hd hs
    exact autoProcess_sendOk_recorded sendOk details fresh_days today
      ads.reverse st x hd hs

theorem c3_record_on_dispatch_witness :
    Ad.mk "b2" "t" "p" "h" "c" ∈
      (processTickDrom emptyStore [Ad.mk "b2" "t" "p" "h" "c"]).2 ∧
    "b2" ∈ adIds (processTickDrom emptyStore [Ad.mk "b2" "t" "p" "h" "c"]).1 ∧
    "b3" ∈ (processTickAuto (fun _ => true) (fun _ => some 0) 0 0 emptyStore
      [Ad.mk "b3" "t" "p" "h" "c"]).2 ∧
    "b3" ∈ adIds (processTickAuto (fun _ => true) (fun _ => some 0) 0 0
      emptyStore [Ad.mk "b3" "t" "p" "h" "c"]).1 :=
  ⟨by decide,
   c3_record_on_dispatch.1 emptyStore [Ad.mk "b2" "t" "p" "h" "c"]
     (Ad.mk "b2" "t" "p" "h" "c") (by decide),
   by decide,
   c3_record_on_dispatch.2 (fun _ => true) (fun _ => some 0) 0 0 emptyStore
     [Ad.mk "b3" "t" "p" "h" "c"] "b3" (by decide) (by decide)⟩

/-- C3 counterexample: in the autoru orchestrator a candidate that reaches
the dispatch step whose delivery raises is NOT recorded — "b1" is dispatched
yet absent from the ads table after the tick, refuting "calls recordItem
regardless of whether the dispatch succeeded or failed". -/
theorem c3_counterexample :
    (processTickAuto (fun _ => false) (fun _ => some 0) 0 0 emptyStore
      [Ad.mk "b1" "t" "p" "h" "c"]).2 = ["b1"] ∧
    adIds (processTickAuto (fun _ => false) (fun _ => some 0) 0 0 emptyStore
      [Ad.mk "b1" "t" "p" "h" "c"]).1 = [] := by
  decide

/-- C4 (amended): an uncaught error escaping one iteration of the polling
loop body is caught by the try/except surrounding the whole `while` loop,
logged, and the task returns — the loop does NOT proceed to further ticks,
so a crashed iteration is a third way (besides `stop()` and the watchdog)
for the background task to end. -/
theorem c4_crash_exits_loop :
    (∀ (pre post : List IterOutcome), (∀ o ∈ pre, o = .ok) →
      parser_loop none 0 (pre ++ .raiseErr :: post) =
        (pre.length + 1, .crashCaught)) ∧
    (∀ outs : List IterOutcome, (∀ o ∈ outs, o = .ok) →
      parser_loop none 0 outs = (outs.length, .scheduleOver)) := by
  constructor
  · intro pre post h
    have := parser_loop_crash pre post 0 h
    simpa using this
  · intro outs h
    have := parser_loop_all_ok outs 0 h
    simpa using this

theorem c4_crash_exits_loop_witness :
    (∀ o ∈ ([.ok] : List IterOutcome), o = IterOutcome.ok) ∧
    parser_loop none 0 ([.ok] ++ .raiseErr :: [.ok, .ok]) =
      (2, .crashCaught) :=
  ⟨by decide, by
    have := c4_crash_exits_loop.1 [.ok] [.ok, .ok] (by decide)
    simpa using this⟩

/-- C4 counterexample: with no stop request and iteration outcomes
[ok, raise, ok], the task runs 2 iterations and returns with the exception
caught outside the loop; the third scheduled tick never runs, refuting "the
loop proceeds to the next tick" and "the task ends only via stop() or the
watchdog". -/
theorem c4_counterexample :
    parser_loop none 0 [.ok, .raiseErr, .ok] = (2, .crashCaught) ∧
    ¬((parser_loop none 0 [.ok, .raiseErr, .ok]).1 = 3) := by
  decide

/-- C5: within one tick, the dispatcher is invoked on the adapter's
candidates in reversed (oldest-first) order: when all candidates are unseen
and carry distinct ids, the dispatched sequence is exactly the reversal of
the adapter's list. -/
theorem c5_oldest_first (st : Store) (ads : List Ad)
    (hnew : ∀ a ∈ ads, is_new_ad st a.id = true)
    (hdist : ads.Pairwise (fun a b => a.id ≠ b.id)) :
    (processTickDrom st ads).2 = ads.reverse := by
  unfold processTickDrom
  refine dromProcess_all_new ads.reverse st
    (fun a ha => hnew a (List.mem_reverse.mp ha)) ?_
  rw [List.pairwise_reverse]
  exact hdist.imp (fun h => Ne.symm h)

theorem c5_oldest_first_witness :
    (∀ a ∈ [Ad.mk "3" "t3" "p" "h" "c", Ad.mk "2" "t2" "p" "h" "c",
        Ad.mk "1" "t1" "p" "h" "c"], is_new_ad emptyStore a.id = true) ∧
    ([Ad.mk "3" "t3" "p" "h" "c", Ad.mk "2" "t2" "p" "h" "c",
        Ad.mk "1" "t1" "p" "h" "c"].Pairwise (fun a b => a.id ≠ b.id)) ∧
    (processTickDrom emptyStore [Ad.mk "3" "t3" "p" "h" "c",
        Ad.mk "2" "t2" "p" "h" "c", Ad.mk "1" "t1" "p" "h" "c"]).2 =
      [Ad.mk "1" "t1" "p" "h" "c", Ad.mk "2" "t2" "p" "h" "c",
        Ad.mk "3" "t3" "p" "h" "c"] :=
  ⟨by decide, by decide, by
    have := c5_oldest_first emptyStore
      [Ad.mk "3" "t3" "p" "h" "c", Ad.mk "2" "t2" "p" "h" "c",
        Ad.mk "1" "t1" "p" "h" "c"] (by decide) (by decide)
    simpa using this⟩

/-- C6: the unset-configuration guard. On an iteration where the watch URL
is unset, a timed-out wait skips the fetch and re-checks (second conjunct);
but if the stop event is set during the wait, `wait_for` returns without the
TimeoutError and control falls through to `collect_ads` — the Extraction
Adapter IS invoked on an iteration with the URL unset (first conjunct),
contradicting the claim.  The third conjunct is the configured iteration,
which always fetches. -/
theorem c6_unset_config_fetch :
    drom_iter_invokes_adapter none (some "42") true = true ∧
    drom_iter_invokes_adapter none (some "42") false = false ∧
    drom_iter_invokes_adapter (some "https://auto.drom.ru/x") (some "42")
      false = true := by
  decide

/-- C7: `start` is a no-op when running (so the single `_task` slot never
holds more than one live task); `stop` is a no-op when idle, waits at most
`interval + 5` seconds, and leaves the service idle even when the wait times
out (the task is detached); a start from idle installs exactly one fresh
live task and a fresh unset stop event. -/
theorem c7_lifecycle :
    (∀ v : Svc, is_running v = true → start v = v) ∧
    (∀ (v : Svc) (t : Nat), is_running v = false → stop v t = (v, 0)) ∧
    (∀ (v : Svc) (t : Nat), (stop v t).2 ≤ v.interval + 5) ∧
    (∀ (v : Svc) (t : Nat), is_running (stop v t).1 = false) ∧
    (∀ v : Svc, is_running v = false →
      is_running (start v) = true ∧ (start v).task = some ⟨false⟩ ∧
      (start v).stop_event = some false) := by
  refine ⟨fun v h => ?_, fun v t h => ?_, fun v t => ?_, fun v t => ?_,
    fun v h => ?_⟩
  · unfold start
    rw [if_pos h]
  · unfold stop
    rw [if_pos (by simp [h])]
  · unfold stop
    split
    · exact Nat.zero_le _
    · exact Nat.min_le_right _ _
  · exact is_running_stop_fst v t
  · unfold start
    rw [if_neg (by simp [h])]
    exact ⟨rfl, rfl, rfl⟩

theorem c7_lifecycle_witness :
    is_running (⟨5, some ⟨false⟩, some false⟩ : Svc) = true ∧
    start (⟨5, some ⟨false⟩, some false⟩ : Svc) = ⟨5, some ⟨false⟩, some false⟩ ∧
    is_running (⟨5, none, none⟩ : Svc) = false ∧
    stop (⟨5, none, none⟩ : Svc) 3 = (⟨5, none, none⟩, 0) ∧
    (stop (⟨5, some ⟨false⟩, some false⟩ : Svc) 99).2 ≤ 5 + 5 ∧
    is_running (stop (⟨5, some ⟨false⟩, some false⟩ : Svc) 99).1 = false ∧
    is_running (start (⟨5, none, none⟩ : Svc)) = true :=
  ⟨by decide,
   c7_lifecycle.1 ⟨5, some ⟨false⟩, some false⟩ (by decide),
   by decide,
   c7_lifecycle.2.1 ⟨5, none, none⟩ 3 (by decide),
   c7_lifecycle.2.2.1 ⟨5, some ⟨false⟩, some false⟩ 99,
   c7_lifecycle.2.2.2.1 ⟨5, some ⟨false⟩, some false⟩ 99,
   (c7_lifecycle.2.2.2.2 ⟨5, none, none⟩ (by decide)).1⟩

/-- C8 (amended): `set_watch_url` accepts a URL iff it is nonempty, its
stripped form is at most 2000 characters, lowercases to a string starting
with one of the three drom.ru prefixes, and contains no semicolon, single
quote or backslash (this is not a control-character check); on acceptance
the stripped URL overwrites `watch_url`; on rejection the store is
unchanged (a reason string is returned either way). -/
theorem c8_set_watch_url_characterization (st : Store) (url : String) :
    ((set_watch_url st url).2.1 = true ↔ dromUrlOk url) ∧
    ((set_watch_url st url).2.1 = true →
      get_watch_url (set_watch_url st url).1 = some (pyStrip url)) ∧
    ((set_watch_url st url).2.1 = false → (set_watch_url st url).1 = st) := by
  cases h : sanitize_url_drom url with
  | none =>
    have hno : ¬ dromUrlOk url := by
      intro hOk
      rw [sanitize_url_drom_of_ok url hOk] at h
      exact Option.noConfusion h
    unfold set_watch_url
    rw [h]
    exact ⟨by simp [hno], by simp, fun _ => rfl⟩
  | some s =>
    obtain ⟨hOk, hs⟩ := sanitize_url_drom_some_elim url s h
    subst hs
    unfold set_watch_url
    rw [h]
    refine ⟨by simp [hOk], fun _ => ?_, by simp⟩
    show get_kv (insert_url (set_kv st KEY_WATCH_URL (pyStrip url)) (pyStrip url))
      KEY_WATCH_URL = some (pyStrip url)
    rw [get_kv_insert_url, get_kv_set_kv]
    simp

theorem c8_set_watch_url_characterization_witness :
    (set_watch_url emptyStore "https://auto.drom.ru/region43/all/").2.1 = true ∧
    get_watch_url (set_watch_url emptyStore
        "https://auto.drom.ru/region43/all/").1 =
      some (pyStrip "https://auto.drom.ru/region43/all/") ∧
    (set_watch_url emptyStore "http://evil.example/x").2.1 = false ∧
    (set_watch_url emptyStore "http://evil.example/x").1 = emptyStore :=
  ⟨by decide,
   (c8_set_watch_url_characterization emptyStore
     "https://auto.drom.ru/region43/all/").2.1 (by decide),
   by decide,
   (c8_set_watch_url_characterization emptyStore
     "http://evil.example/x").2.2 (by decide)⟩

/-- C8 counterexample: a URL containing a control character (a newline) is
accepted by `set_watch_url`, refuting "accepts only if the URL contains no
control characters"; and a URL containing a semicolon — not a control
character — is rejected despite matching the domain allow-list. -/
theorem c8_counterexample :
    (set_watch_url emptyStore "https://auto.drom.ru/a\nb").2.1 = true ∧
    ("https://auto.drom.ru/a\nb".data.any (fun c => decide (c.toNat < 32))) =
      true ∧
    (set_watch_url emptyStore "https://auto.drom.ru/a;b").2.1 = false ∧
    ("https://auto.drom.ru/a;b".data.any (fun c => decide (c.toNat < 32))) =
      false := by
  decide

/-- C9: when the watchdog runs with the lock unlatched, expiry set and
`now >= expiry`, the service ends idle and the lock latched; the
intermediate state (after the conditional stop, before the latch) already
has the service idle while the lock is still unobservable; the watchdog's
result is exactly the latch applied to that stopped state; and a subsequent
start request through the toggle handler is refused, leaving the state
unchanged. -/
theorem c9_watchdog_stop_then_lock (s : Sys) (now e : Int) (taskExit : Nat)
    (hl : is_locked s.store = false)
    (he : get_expiry s.store = some e)
    (hn : e ≤ now) :
    is_running (expiry_job now taskExit s).svc = false ∧
    is_locked (expiry_job now taskExit s).store = true ∧
    is_locked
      (if is_running s.svc then { s with svc := (stop s.svc taskExit).1 }
       else s).store = false ∧
    is_running
      (if is_running s.svc then { s with svc := (stop s.svc taskExit).1 }
       else s).svc = false ∧
    expiry_job now taskExit s =
      { (if is_running s.svc then { s with svc := (stop s.svc taskExit).1 }
         else s) with
        store := lock_forever
          (if is_running s.svc then { s with svc := (stop s.svc taskExit).1 }
           else s).store } ∧
    (∀ (now2 : Int) (cfg : BotCfg) (t2 : Nat),
      menu_button .toggle now2 cfg t2 (expiry_job now taskExit s) =
        expiry_job now taskExit s ∧
      is_running ((menu_button .toggle now2 cfg t2
        (expiry_job now taskExit s)).svc) = false) := by
  have hjob : expiry_job now taskExit s =
      { (if is_running s.svc then { s with svc := (stop s.svc taskExit).1 }
         else s) with
        store := lock_forever
          (if is_running s.svc then { s with svc := (stop s.svc taskExit).1 }
           else s).store } := by
    unfold expiry_job
    rw [hl, he]
    simp [hn]
  have hmidlock : is_locked
      (if is_running s.svc then { s with svc := (stop s.svc taskExit).1 }
       else s).store = false := by
    split <;> exact hl
  have hmidrun : is_running
      (if is_running s.svc then { s with svc := (stop s.svc taskExit).1 }
       else s).svc = false := by
    by_cases hr : is_running s.svc = true
    · rw [if_pos hr]
      exact is_running_stop_fst s.svc taskExit
    · rw [Bool.not_eq_true] at hr
      rw [if_neg (by simp [hr])]
      exact hr
  have hrun : is_running (expiry_job now taskExit s).svc = false := by
    rw [hjob]
    exact hmidrun
  have hlock2 : is_locked (expiry_job now taskExit s).store = true := by
    rw [hjob]
    exact is_locked_lock_forever _
  refine ⟨hrun, hlock2, hmidlock, hmidrun, hjob, fun now2 cfg t2 => ?_⟩
  have hid := menu_button_toggle_locked_idle now2 cfg t2
    (expiry_job now taskExit s) hlock2 hrun
  exact ⟨hid, by rw [hid]; exact hrun⟩

/-- A concrete unlatched, expired, running state for exercising C9. -/
def expiredRunningSys : Sys :=
  { store := set_kv (set_kv emptyStore KEY_EXPIRY_AT "100")
      KEY_EXPIRED_LOCK "false",
    svc := ⟨5, some ⟨false⟩, some false⟩ }

theorem c9_watchdog_stop_then_lock_witness :
    is_locked expiredRunningSys.store = false ∧
    get_expiry expiredRunningSys.store = some 100 ∧
    (100 : Int) ≤ 200 ∧
    is_running (expiry_job 200 3 expiredRunningSys).svc = false ∧
    is_locked (expiry_job 200 3 expiredRunningSys).store = true ∧
    menu_button .toggle 201 ⟨none, none, none⟩ 0
        (expiry_job 200 3 expiredRunningSys) =
      expiry_job 200 3 expiredRunningSys :=
  ⟨by decide, by decide, by decide,
   (c9_watchdog_stop_then_lock expiredRunningSys 200 100 3 (by decide)
     (by decide) (by decide)).1,
   (c9_watchdog_stop_then_lock expiredRunningSys 200 100 3 (by decide)
     (by decide) (by decide)).2.1,
   ((c9_watchdog_stop_then_lock expiredRunningSys 200 100 3 (by decide)
     (by decide) (by decide)).2.2.2.2.2 201 ⟨none, none, none⟩ 0).1⟩

/-- C10: for every `fresh_days >= 0` the freshness predicate holds iff the
posting date parsed and the age lies between 0 and `fresh_days` days
inclusive; an unparsed (`None`) or future posting date is stale; and in an
autoru tick a candidate whose fetched date is stale is never dispatched yet
every occurrence of it ends up recorded as seen. -/
theorem c10_freshness (fresh_days today : Int) (created : Option Int)
    (hfd : 0 ≤ fresh_days) :
    (is_fresh created fresh_days today = true ↔
      ∃ c, created = some c ∧ 0 ≤ today - c ∧ today - c ≤ fresh_days) ∧
    is_fresh none fresh_days today = false ∧
    (∀ c : Int, today < c → is_fresh (some c) fresh_days today = false) ∧
    (∀ (sendOk : String → Bool) (details : String → Option Int) (st : Store)
        (ads : List Ad) (x : String),
      is_fresh (details x) fresh_days today = false →
        x ∉ (processTickAuto sendOk details fresh_days today st ads).2 ∧
        (x ∈ ads.map Ad.id →
          x ∈ adIds (processTickAuto sendOk details fresh_days today st ads).1)) := by
  refine ⟨?_, rfl, fun c hc => ?_, fun sendOk details st ads x hstale => ?_⟩
  · cases created with
    | none => simp [is_fresh]
    | some c => simp [is_fresh]
  · simp only [is_fresh, Bool.and_eq_false_iff, decide_eq_false_iff_not]
    omega
  · have h := autoProcess_stale sendOk details fresh_days today ads.reverse
      st x hfd hstale
    refine ⟨h.1, fun hin => ?_⟩
    apply h.2
    simpa [List.mem_map, List.mem_reverse] using hin

theorem c10_freshness_witness :
    (0 : Int) ≤ 2 ∧
    is_fresh (some 5) 2 3 = false ∧
    is_fresh ((fun _ => (none : Option Int)) "n1") 2 3 = false ∧
    "n1" ∉ (processTickAuto (fun _ => true) (fun _ => none) 2 3 emptyStore
      [Ad.mk "n1" "t" "p" "h" "c"]).2 ∧
    "n1" ∈ adIds (processTickAuto (fun _ => true) (fun _ => none) 2 3
      emptyStore [Ad.mk "n1" "t" "p" "h" "c"]).1 :=
  ⟨by decide,
   (c10_freshness 2 3 (some 5) (by decide)).2.2.1 5 (by decide),
   by decide,
   ((c10_freshness 2 3 none (by decide)).2.2.2 (fun _ => true) (fun _ => none)
     emptyStore [Ad.mk "n1" "t" "p" "h" "c"] "n1" (by decide)).1,
   ((c10_freshness 2 3 none (by decide)).2.2.2 (fun _ => true) (fun _ => none)
     emptyStore [Ad.mk "n1" "t" "p" "h" "c"] "n1" (by decide)).2 (by decide)⟩

end Parsers
